import Mathlib

/-!
Shallow embedding of the claude-monitor-lite repository (Go) for checking its
natural-language specification.

Conventions used throughout:
* Go `float64` values that the program only ever adds, divides and compares
  (utilization percentages, `Duration.Minutes()`) are modelled as `ℚ`; every
  concrete value appearing in the claims is exactly representable, and the
  comparisons the code performs agree with the rational ones there.
* Go `int`/`int64` are modelled as `ℤ`; Go integer division and remainder
  truncate toward zero, which is `Int.tdiv` / `Int.tmod`.
* Go `int(x)` conversion from `float64` truncates toward zero (`goTrunc`).
* A Go `time.Time` is modelled as `GoTime`: its absolute instant in Unix
  nanoseconds (used by `time.Until`) together with the local-calendar fields
  the code reads (`Year/Month/Day/Hour/Minute` after `.Local()`); the zero
  value (`IsZero()`) is modelled as `Option.none` where the code checks it.
* Fallible OS effects (file reads, process launches) are modelled as explicit
  world state passed to and returned by the embedded functions.
-/

namespace ClaudeMonitorLite

/-- Go conversion `int(x)` from `float64`: truncation toward zero. -/
def goTrunc (x : ℚ) : ℤ := if 0 ≤ x then ⌊x⌋ else ⌈x⌉

/-- Model of `time.Time`: the absolute instant in Unix nanoseconds plus the
local-calendar fields that `formatResetTime` reads after `.Local()`. -/
structure GoTime where
  unixNs : ℤ
  year : ℤ
  month : ℤ
  day : ℤ
  hour : ℤ
  minute : ℤ
deriving DecidableEq, Inhabited

/-- Source `roundUtilization` (main file, lines 56-58):
`int(utilization + 0.5)`. -/
def roundUtilization (utilization : ℚ) : ℤ :=
  goTrunc (utilization + 1/2)

/-- Source `getColorIndicator` (main file, lines 61-69). -/
def getColorIndicator (utilization : ℚ) : String :=
  if utilization < 50 then "🟢"
  else if utilization < 80 then "🟡"
  else "🔴"

/-- Source `roundToTenMinutes` (main file, lines 72-74):
`((minutes + 5) / 10) * 10` with Go (truncating) integer division. -/
def roundToTenMinutes (minutes : ℤ) : ℤ :=
  (Int.tdiv (minutes + 5) 10) * 10

/-- Source `calculateTimeUntilReset` (main file, lines 77-91).
`resetTime.IsZero()` is modelled by `Option.none`; `time.Until` by the
difference of Unix nanoseconds; `duration.Minutes()` is the exact rational
`ns / 60e9` and `int(...)` truncates it. -/
def calculateTimeUntilReset (resetTime : Option GoTime) (nowNs : ℤ) :
    ℤ × ℤ × Bool :=
  match resetTime with
  | none => (0, 0, false)
  | some t =>
    let durationNs := t.unixNs - nowNs
    if durationNs < 0 then (0, 0, false)
    else
      let totalMinutes := roundToTenMinutes (goTrunc ((durationNs : ℚ) / 60000000000))
      (Int.tdiv totalMinutes 60, Int.tmod totalMinutes 60, true)

/-- Zero padding of a decimal rendering to a given width, as Go
`fmt.Sprintf` with a `%0Nd` verb does (zeros go between sign and digits). -/
def zeroPad (width : Nat) (n : ℤ) : String :=
  if n < 0 then
    let s := toString (-n)
    "-" ++ (if s.length < width - 1 then String.mk (List.replicate (width - 1 - s.length) '0') ++ s else s)
  else
    let s := toString n
    if s.length < width then String.mk (List.replicate (width - s.length) '0') ++ s else s

/-- Space padding of a decimal rendering to a given width, as Go
`fmt.Sprintf` with a `%Nd` verb does. -/
def spacePad (width : Nat) (n : ℤ) : String :=
  let s := toString n
  if s.length < width then String.mk (List.replicate (width - s.length) ' ') ++ s else s

/-- The hour/minute adjustment inside source `formatResetTime`
(main file, lines 100-105): when the rounded minutes reach 60 the hour is
incremented modulo 24 and the minutes become 0. -/
def formatResetAdjust (hour roundedMinutes : ℤ) : ℤ × ℤ :=
  if roundedMinutes ≥ 60 then (Int.tmod (hour + 1) 24, 0) else (hour, roundedMinutes)

/-- Source `formatResetTime` (main file, lines 94-109):
`fmt.Sprintf("%04d-%02d-%02d %02d:%02d", ...)` on the local-calendar fields,
with the minutes rounded to the nearest ten and the rollover adjustment. -/
def formatResetTime (t : GoTime) : String :=
  let hm := formatResetAdjust t.hour (roundToTenMinutes t.minute)
  zeroPad 4 t.year ++ "-" ++ zeroPad 2 t.month ++ "-" ++ zeroPad 2 t.day ++ " " ++
    zeroPad 2 hm.1 ++ ":" ++ zeroPad 2 hm.2

/-- Source struct `UsageLimit` (claude_client.go): utilization percentage,
the raw `resets_at` text, and the parsed reset time (zero value modelled as
`none`, which is what `ResetsAtTime` stays when `resets_at` is absent or
fails to parse). -/
structure UsageLimit where
  utilization : ℚ
  resetsAt : String
  resetsAtTime : Option GoTime
deriving DecidableEq

/-- Source struct `UsageLimits` (claude_client.go); `LastUpdated` is kept as
its Unix nanoseconds. -/
structure UsageLimits where
  fiveHour : Option UsageLimit
  sevenDay : Option UsageLimit
  sevenDayOAuthApps : Option UsageLimit
  sevenDayOpus : Option UsageLimit
  iguanaNecktie : Option UsageLimit
  lastUpdatedNs : ℤ
deriving DecidableEq

/-- Source `formatUsageWithReset` (main file, lines 112-131). -/
def formatUsageWithReset (limit : Option UsageLimit) (label : String) (nowNs : ℤ) : String :=
  match limit with
  | none => label ++ " --"
  | some l =>
    let utilization := roundUtilization l.utilization
    let r := calculateTimeUntilReset l.resetsAtTime nowNs
    let hours := r.1
    let minutes := r.2.1
    let hasTime := r.2.2
    if hasTime = false ∧ utilization = 0 then
      label ++ " " ++ toString utilization ++ "% (no active session)"
    else if hasTime then
      label ++ " " ++ toString utilization ++ "% (resets " ++
        formatResetTime ((l.resetsAtTime).getD default) ++ ", in " ++
        toString hours ++ "h " ++ toString minutes ++ "m)"
    else
      label ++ " " ++ toString utilization ++ "%"

/-- Source `formatConsoleUsage` (main file, lines 134-151), with the `%3d`
space padding of the percentage. -/
def formatConsoleUsage (limit : Option UsageLimit) (label noSessionMsg : String)
    (nowNs : ℤ) : String :=
  match limit with
  | none => label ++ "  --\n"
  | some l =>
    let utilization := roundUtilization l.utilization
    let r := calculateTimeUntilReset l.resetsAtTime nowNs
    let hours := r.1
    let minutes := r.2.1
    let hasTime := r.2.2
    if hasTime then
      label ++ "  " ++ spacePad 3 utilization ++ "%  (resets " ++
        formatResetTime ((l.resetsAtTime).getD default) ++ ", in " ++
        toString hours ++ "h " ++ toString minutes ++ "m)\n"
    else if noSessionMsg ≠ "" then
      label ++ "  " ++ spacePad 3 utilization ++ "%  (" ++ noSessionMsg ++ ")\n"
    else
      label ++ "  " ++ spacePad 3 utilization ++ "%\n"

/-- Source `getSelectedLimit` (main file, lines 154-165). -/
def getSelectedLimit (limits : UsageLimits) (indicator : String) : Option UsageLimit :=
  if indicator = "currentSession" then limits.fiveHour
  else if indicator = "weeklyAll" then limits.sevenDay
  else if indicator = "weeklyOpus" then limits.sevenDayOpus
  else limits.fiveHour

/-- Source `updateMenuBarDisplay` (main file, lines 177-194), returning the
string passed to `systray.SetTitle`. -/
def updateMenuBarDisplay (limits : UsageLimits) (indicator : String) (nowNs : ℤ) : String :=
  match getSelectedLimit limits indicator with
  | none => "⚪ --"
  | some limit =>
    let utilization := roundUtilization limit.utilization
    let r := calculateTimeUntilReset limit.resetsAtTime nowNs
    let hours := r.1
    let minutes := r.2.1
    let hasTime := r.2.2
    let ind := getColorIndicator limit.utilization
    if hasTime then
      ind ++ " " ++ toString utilization ++ "% (" ++ toString hours ++ "h" ++
        toString minutes ++ "m)"
    else
      ind ++ " " ++ toString utilization ++ "%"

/-- Classification of a failed fetch, as `updateStats` performs it with
`errors.Is(err, ErrAuthFailed)`: the 401/403 path of `GetUsageLimits` wraps
`ErrAuthFailed`, every other failure does not. -/
inductive FetchError where
  | authFailure
  | other
deriving DecidableEq

/-- The tray state mutated by `updateStats` (main file, lines 592-622): the
`systray` title, the three menu-item titles, and the `lastLimits` cache slot. -/
structure TrayState where
  title : String
  mCurrentSession : String
  mWeeklyAll : String
  mWeeklyOpus : String
  lastLimits : Option UsageLimits
deriving DecidableEq

/-- Source `updateStats` (main file, lines 592-622) as a state transformer.
`clientPresent` models the `claudeClient == nil` guard; the outcome of the
single `GetUsageLimits` call is passed in as `fetchResult`; `indicator` is
`appConfig.MenuBarIndicator` and `nowNs` the current time used by the
formatting helpers. -/
def updateStats (clientPresent : Bool) (indicator : String) (nowNs : ℤ)
    (fetchResult : Except FetchError UsageLimits) (st : TrayState) : TrayState :=
  if clientPresent = false then
    { st with title := "⚪ Error" }
  else
    match fetchResult with
    | .error e =>
      let st := { st with title := "⚪ Error", mCurrentSession := "Error loading data" }
      if e = .authFailure then
        { st with mCurrentSession := "Session expired - please login again" }
      else st
    | .ok limits =>
      { st with
        mCurrentSession := formatUsageWithReset limits.fiveHour "5-Hour Session:" nowNs
        mWeeklyAll := formatUsageWithReset limits.sevenDay "Weekly (All):" nowNs
        mWeeklyOpus := formatUsageWithReset limits.sevenDayOpus "Weekly (Opus):" nowNs
        lastLimits := some limits
        title := updateMenuBarDisplay limits indicator nowNs }

/-- An atomic operation on the `lastLimits` slot. Every access to the slot in
the source holds `limitsMutex` (write at lines 616-618, reads at lines
543-545, 553-555, 563-565), so a history of the slot is a sequence of whole
`set`/`get` operations. -/
inductive CacheOp where
  | set (v : UsageLimits)
  | get
deriving DecidableEq

/-- State transition of the cache slot under one atomic operation. -/
def cacheStep (s : Option UsageLimits) (op : CacheOp) : Option UsageLimits :=
  match op with
  | .set v => some v
  | .get => s

/-- The slot contents after a history of operations starting from state `s`. -/
def cacheAfter (ops : List CacheOp) (s : Option UsageLimits) : Option UsageLimits :=
  ops.foldl cacheStep s

/-- The values observed by the `get` operations of a history, in order,
starting from slot state `s`. Every `get` yields exactly one observation:
the read is non-blocking and total. -/
def runCache : List CacheOp → Option UsageLimits → List (Option UsageLimits)
  | [], _ => []
  | .set v :: rest, _ => runCache rest (some v)
  | .get :: rest, s => s :: runCache rest s

/-- Number of `get` operations in a history. -/
def countGets : List CacheOp → Nat
  | [] => 0
  | .set _ :: rest => countGets rest
  | .get :: rest => 1 + countGets rest

/-- Go `strconv.Atoi`: an optional single leading sign followed by at least
one decimal digit, rejecting anything else, and rejecting values outside the
64-bit `int` range. -/
def atoi (s : String) : Option ℤ :=
  let chars := s.data
  let signed : ℤ × List Char :=
    match chars with
    | '-' :: rest => (-1, rest)
    | '+' :: rest => (1, rest)
    | _ => (1, chars)
  let digits := signed.2
  if digits.isEmpty then none
  else if ¬ digits.all Char.isDigit then none
  else
    let mag : ℤ := digits.foldl (fun a c => 10 * a + ((c.toNat : ℤ) - ('0'.toNat : ℤ))) 0
    let v := signed.1 * mag
    if v > 9223372036854775807 ∨ v < -9223372036854775808 then none else some v

/-- The OS state seen by the Process Identity Guard: the contents of the PID
marker file (`none` when reading it fails because it is absent) and the set
of process ids for which the `Signal(0)` liveness probe succeeds. -/
structure PidWorld where
  marker : Option String
  live : List ℤ
deriving DecidableEq

/-- Source `isRunning` (main file, lines 441-470) as a function from the OS
state to the returned Bool and the resulting OS state. `os.FindProcess`
never fails on Unix, so its error branch (lines 454-459) is unreachable and
the dead-process case is decided by the `Signal(0)` probe (lines 462-467);
both the unparsable-PID branch and the failed-probe branch remove the marker
file. -/
def isRunning (w : PidWorld) : Bool × PidWorld :=
  match w.marker with
  | none => (false, w)
  | some data =>
    match atoi data with
    | none => (false, { w with marker := none })
    | some pid =>
      if w.live.contains pid then (true, w)
      else (false, { w with marker := none })

/-- The command specification the daemonizer hands to `exec.Command`: the
path launched, whether `CLAUDE_MONITOR_DAEMON=1` was appended to the
environment, and whether each standard stream was left nil (not inherited). -/
structure CmdSpec where
  path : String
  envDaemonFlag : Bool
  stdinNil : Bool
  stdoutNil : Bool
  stderrNil : Bool
deriving DecidableEq

/-- Observable outcome of `daemonize`: return to the caller (the current
process is already the daemon), terminate with a non-zero exit code, or
launch a detached child, print its PID, sleep `daemonStartupDelay` and exit
with status 0. -/
inductive DaemonOutcome where
  | proceed
  | exitCode (code : ℤ)
  | detachExit (cmd : CmdSpec) (printedPid : ℤ) (delayNs : ℤ)
deriving DecidableEq

/-- The OS state seen by `daemonize`: whether `CLAUDE_MONITOR_DAEMON=1` is
set, the result of `os.Executable()` (`none` = error), and the result of
`cmd.Start()` (`none` = error, otherwise the child PID). -/
structure DaemonWorld where
  daemonEnv : Bool
  execPath : Option String
  startResult : Option ℤ
deriving DecidableEq

/-- Source constant `daemonStartupDelay` (daemon.go): 100 milliseconds, in
nanoseconds. -/
def daemonStartupDelay : ℤ := 100000000

/-- Source `daemonize` (daemon.go, lines 17-55). -/
def daemonize (w : DaemonWorld) : DaemonOutcome :=
  if w.daemonEnv then .proceed
  else
    match w.execPath with
    | none => .exitCode 1
    | some executable =>
      match w.startResult with
      | none => .exitCode 1
      | some pid =>
        .detachExit ⟨executable, true, true, true, true⟩ pid daemonStartupDelay

/-- A JSON value, identifying a file's textual contents with its parse tree
(a file whose contents are not valid JSON is `ConfigFile.invalid` below).
Numbers are rationals; `time.Time` values are carried as their RFC 3339
string form, which is how the config file stores them. -/
inductive Json where
  | null
  | bool (b : Bool)
  | num (q : ℚ)
  | str (s : String)
  | arr (elems : List Json)
  | obj (fields : List (String × Json))

/-- Source struct `Config` (config.go, lines 10-15); `SavedAt *time.Time` is
modelled as the optional RFC 3339 text of the timestamp (`none` = nil
pointer). -/
structure Config where
  sessionKey : String
  organizationId : String
  savedAt : Option String
  menuBarIndicator : String
deriving DecidableEq

/-- The zero value of `Config`. -/
def zeroConfig : Config := ⟨"", "", none, ""⟩

/-- Go `encoding/json` field-name matching: an exact match, or else a match
ignoring ASCII letter case. -/
def jsonKeyMatches (k fieldName : String) : Bool :=
  let lower := fun c : Char => if 'A' ≤ c ∧ c ≤ 'Z' then Char.ofNat (c.toNat + 32) else c
  k = fieldName ∨ k.data.map lower = fieldName.data.map lower

/-- Numeric value of two decimal digit characters. -/
def twoDigitNum (a b : Char) : Nat :=
  10 * (a.toNat - Char.toNat '0') + (b.toNat - Char.toNat '0')

/-- Go `time.daysIn`: the number of days of a month, with the Gregorian
leap rule for February. -/
def goDaysIn (month year : Nat) : Nat :=
  if month = 2 then
    if year % 4 = 0 ∧ (year % 100 ≠ 0 ∨ year % 400 = 0) then 29 else 28
  else if month = 4 ∨ month = 6 ∨ month = 9 ∨ month = 11 then 30
  else 31

/-- Time-zone suffix of a strict RFC 3339 timestamp, as Go
`time.parseRFC3339` checks it: the single letter Z, or a sign, a two-digit
hour at most 23, a colon, and a two-digit minute at most 59. -/
def rfc3339Zone : List Char → Bool
  | ['Z'] => true
  | [sg, h1, h2, ':', m1, m2] =>
    (sg = '+' ∨ sg = '-') ∧ h1.isDigit ∧ h2.isDigit ∧ m1.isDigit ∧ m2.isDigit ∧
      twoDigitNum h1 h2 ≤ 23 ∧ twoDigitNum m1 m2 ≤ 59
  | _ => false

/-- Consumes the remaining digits of a fractional second and then requires
the zone suffix. -/
def rfc3339DigitsThenZone : List Char → Bool
  | [] => rfc3339Zone []
  | c :: rest => if c.isDigit then rfc3339DigitsThenZone rest else rfc3339Zone (c :: rest)

/-- What may follow the seconds of a strict RFC 3339 timestamp: an optional
fractional second (a dot followed by at least one digit), then the zone
suffix. -/
def rfc3339AfterSeconds : List Char → Bool
  | '.' :: c :: rest => c.isDigit && rfc3339DigitsThenZone rest
  | l => rfc3339Zone l

/-- The timestamp-text validation Go `time.Time.UnmarshalJSON` performs:
the strict RFC 3339 grammar of `time.parseRFC3339` —
yyyy-mm-ddThh:mm:ss with a four-digit year, month 01-12, a day valid for
that month and year, hour at most 23, minute and second at most 59, an
optional fractional second, and a Z or ±hh:mm zone. (Go currently also
retries near-miss forms with the laxer `time.Parse` — go.dev/issue/54580;
no statement in this file depends on such forms, and the timestamps the
program itself writes are canonical RFC 3339, accepted by both parsers.) -/
def isRFC3339 (s : String) : Bool :=
  match s.data with
  | y1 :: y2 :: y3 :: y4 :: '-' :: mo1 :: mo2 :: '-' :: d1 :: d2 :: 'T' ::
      h1 :: h2 :: ':' :: mi1 :: mi2 :: ':' :: se1 :: se2 :: rest =>
    y1.isDigit ∧ y2.isDigit ∧ y3.isDigit ∧ y4.isDigit ∧
    mo1.isDigit ∧ mo2.isDigit ∧ d1.isDigit ∧ d2.isDigit ∧
    h1.isDigit ∧ h2.isDigit ∧ mi1.isDigit ∧ mi2.isDigit ∧
    se1.isDigit ∧ se2.isDigit ∧
    1 ≤ twoDigitNum mo1 mo2 ∧ twoDigitNum mo1 mo2 ≤ 12 ∧
    1 ≤ twoDigitNum d1 d2 ∧
    twoDigitNum d1 d2 ≤ goDaysIn (twoDigitNum mo1 mo2)
      (twoDigitNum y1 y2 * 100 + twoDigitNum y3 y4) ∧
    twoDigitNum h1 h2 ≤ 23 ∧ twoDigitNum mi1 mi2 ≤ 59 ∧ twoDigitNum se1 se2 ≤ 59 ∧
    rfc3339AfterSeconds rest = true
  | _ => false

/-- Decoding the members of a JSON object into a `Config` under Go
`json.Unmarshal` semantics: a member whose key matches no field is ignored;
`null` leaves a string field untouched and sets the pointer field to nil; a
wrongly typed value for a string field records an `UnmarshalTypeError` (the
Boolean flag) and decoding continues with the remaining members; `savedAt`
is decoded by `time.Time.UnmarshalJSON`, and its failure — any value other
than null that is not a valid RFC 3339 string — is an `Unmarshaler` error,
which aborts decoding of the remaining members (the fields decoded so far
stay set, as Go decodes in place). -/
def decodeConfigFields : List (String × Json) → Config → Bool → Config × Bool
  | [], c, err => (c, err)
  | kv :: rest, c, err =>
    if jsonKeyMatches kv.1 "sessionKey" then
      match kv.2 with
      | .str s => decodeConfigFields rest { c with sessionKey := s } err
      | .null => decodeConfigFields rest c err
      | _ => decodeConfigFields rest c true
    else if jsonKeyMatches kv.1 "organizationId" then
      match kv.2 with
      | .str s => decodeConfigFields rest { c with organizationId := s } err
      | .null => decodeConfigFields rest c err
      | _ => decodeConfigFields rest c true
    else if jsonKeyMatches kv.1 "savedAt" then
      match kv.2 with
      | .str s =>
        if isRFC3339 s then decodeConfigFields rest { c with savedAt := some s } err
        else (c, true)
      | .null => decodeConfigFields rest { c with savedAt := none } err
      | _ => (c, true)
    else if jsonKeyMatches kv.1 "menuBarIndicator" then
      match kv.2 with
      | .str s => decodeConfigFields rest { c with menuBarIndicator := s } err
      | .null => decodeConfigFields rest c err
      | _ => decodeConfigFields rest c true
    else decodeConfigFields rest c err

/-- Go `json.Unmarshal(data, &config)` for a `Config`: a JSON object is
decoded member by member by `decodeConfigFields`; a top-level `null` is a
no-op without error; any other top-level value is an `UnmarshalTypeError`.
Returns the decoded value together with whether an error was reported. -/
def unmarshalConfig (j : Json) : Config × Bool :=
  match j with
  | .obj fields => decodeConfigFields fields zeroConfig false
  | .null => (zeroConfig, false)
  | _ => (zeroConfig, true)

/-- A configuration whose savedAt, when present, passes the RFC 3339
validation — an invariant of everything `decodeConfigFields` produces. -/
def savedAtWellFormed (c : Config) : Bool :=
  match c.savedAt with
  | none => true
  | some t => isRFC3339 t

/-- Go `json.MarshalIndent` of a `Config`: fields in declaration order, the
three session fields carrying `omitempty` (empty string / nil pointer are
omitted), `menuBarIndicator` always present. -/
def marshalConfig (c : Config) : Json :=
  .obj ((if c.sessionKey = "" then [] else [("sessionKey", Json.str c.sessionKey)]) ++
        (if c.organizationId = "" then [] else [("organizationId", Json.str c.organizationId)]) ++
        (match c.savedAt with
         | none => []
         | some t => [("savedAt", Json.str t)]) ++
        [("menuBarIndicator", Json.str c.menuBarIndicator)])

/-- State of the configuration file before the save: unreadable (absent),
readable but not valid JSON, or the JSON value it parses to. -/
inductive ConfigFile where
  | absent
  | invalid
  | json (j : Json)

/-- Source `SaveConfigPreservingSession` (config.go, lines 51-74), returning
the JSON value written back to the file: the existing file is read and
parsed to preserve the session fields, a read error or unmarshal error makes
it start from the zero `Config`, then only `menuBarIndicator` is updated and
the result is marshalled. -/
def SaveConfigPreservingSession (file : ConfigFile) (menuBarIndicator : String) : Json :=
  let existing : Config :=
    match file with
    | .absent => zeroConfig
    | .invalid => zeroConfig
    | .json j =>
      let r := unmarshalConfig j
      if r.2 then zeroConfig else r.1
  marshalConfig { existing with menuBarIndicator := menuBarIndicator }

/-- Lookup of a member in a JSON object (the last binding of the key, as a
Go decoder would retain); `none` for non-objects or missing keys. -/
def jsonField (j : Json) (key : String) : Option Json :=
  match j with
  | .obj fields => fields.foldl (fun acc kv => if kv.1 = key then some kv.2 else acc) none
  | _ => none

/-! Auxiliary definitions used only to state the claims. -/

/-- Rounding to the nearest whole percent with round-half-up semantics,
taken from the specification's words (`⌊u + 1/2⌋`), to be compared with the
source's `roundUtilization`. -/
def roundHalfUpSpec (u : ℚ) : ℤ := ⌊u + 1/2⌋

/-- Decidable test that one character list starts with another, used only to
state that a rendered string contains a given fragment. -/
def leadsWith : List Char → List Char → Bool
  | [], _ => true
  | _ :: _, [] => false
  | a :: as, b :: bs => a = b && leadsWith as bs

/-- Decidable substring test on character lists, used to state that a
rendered string does contain a given fragment. -/
def containsChars (needle : List Char) : List Char → Bool
  | [] => needle.isEmpty
  | c :: rest => leadsWith needle (c :: rest) || containsChars needle rest

/-- Scenario A reset time: 1 hour 23 minutes (83 minutes, in nanoseconds)
after the instant taken as now = 0. -/
def scenarioAReset : GoTime := ⟨4980000000000, 2025, 1, 1, 1, 23⟩

/-- Scenario A usage limit: the current-session window at 42.3% utilization
with the reset of `scenarioAReset`. -/
def scenarioALimit : UsageLimit := ⟨423/10, "2025-01-01T01:23:00Z", some scenarioAReset⟩

/-- Scenario A snapshot: only the current-session window is populated. -/
def scenarioALimits : UsageLimits := ⟨some scenarioALimit, none, none, none, none, 0⟩

/-- Reset time 61 minutes (in nanoseconds) after the instant taken as
now = 0, for the 61-minutes display example. -/
def sixtyOneMinuteReset : GoTime := ⟨3660000000000, 2025, 1, 1, 1, 1⟩

/-- An empty usage snapshot, used to instantiate trace properties of the
cache slot at a concrete value. -/
def emptyLimits : UsageLimits := ⟨none, none, none, none, none, 0⟩

/-! Theorems settling the claims. -/

/-- C6: for every utilization value, the indicator tier is 🟢 below 50%,
🟡 from 50% up to (excluding) 80%, and 🔴 at 80% and above. -/
theorem getColorIndicator_tiers (u : ℚ) :
    (u < 50 → getColorIndicator u = "🟢") ∧
    (50 ≤ u → u < 80 → getColorIndicator u = "🟡") ∧
    (80 ≤ u → getColorIndicator u = "🔴") := by
  unfold getColorIndicator
  refine ⟨fun h => by rw [if_pos h], fun h1 h2 => ?_, fun h => ?_⟩
  · rw [if_neg (by linarith), if_pos h2]
  · rw [if_neg (by linarith), if_neg (by linarith)]

/-- Witness for C6: at utilization 60 the hypotheses of the mid tier hold
and the indicator is 🟡. -/
theorem getColorIndicator_tiers_witness :
    (50 : ℚ) ≤ 60 ∧ (60 : ℚ) < 80 ∧ getColorIndicator 60 = "🟡" :=
  ⟨by decide, by decide, (getColorIndicator_tiers 60).2.1 (by decide) (by decide)⟩

/-- C7: on [0, 100) the displayed whole percent computed by
`roundUtilization` equals round-half-up, and in particular 49.5 rounds to 50
and 79.4 rounds to 79. -/
theorem roundUtilization_is_half_up (u : ℚ) (h0 : 0 ≤ u) (_h1 : u < 100) :
    roundUtilization u = roundHalfUpSpec u ∧
    roundUtilization (99/2) = 50 ∧ roundUtilization (397/5) = 79 := by
  refine ⟨?_, by norm_num [roundUtilization, goTrunc], by norm_num [roundUtilization, goTrunc]⟩
  unfold roundUtilization roundHalfUpSpec goTrunc
  rw [if_pos (by linarith)]

/-- Witness for C7: the theorem applied at utilization 42. -/
theorem roundUtilization_is_half_up_witness :
    (0 : ℚ) ≤ 42 ∧ (42 : ℚ) < 100 ∧ roundUtilization 42 = roundHalfUpSpec 42 :=
  ⟨by decide, by decide, (roundUtilization_is_half_up 42 (by decide) (by decide)).1⟩

/-- C5 counterexample: at 42.3% utilization the rendered indicator tier is
the low tier 🟢 (42.3 < 50), not the mid tier 🟡 the claim expects, and the
full scenario-A title is "🟢 42% (1h20m)". -/
theorem scenarioA_indicator_is_low_not_mid :
    getColorIndicator (423/10) = "🟢" ∧
    getColorIndicator (423/10) ≠ "🟡" ∧
    updateMenuBarDisplay scenarioALimits "currentSession" 0 = "🟢 42% (1h20m)" := by
  have hlt : (423 : ℚ)/10 < 50 := by norm_num
  have hind : getColorIndicator (423/10) = "🟢" := by
    unfold getColorIndicator; rw [if_pos hlt]
  have hround : roundUtilization (423/10) = 42 := by
    norm_num [roundUtilization, goTrunc]
  have hmin : goTrunc (((4980000000000 : ℤ) - 0 : ℤ) / (60000000000 : ℚ)) = 83 := by
    norm_num [goTrunc]
  have hcalc : calculateTimeUntilReset (some scenarioAReset) 0 = (1, 20, true) := by
    unfold calculateTimeUntilReset scenarioAReset
    norm_num [goTrunc, roundToTenMinutes]
    decide
  refine ⟨hind, by rw [hind]; decide, ?_⟩
  show updateMenuBarDisplay scenarioALimits "currentSession" 0 = "🟢 42% (1h20m)"
  have hsel : getSelectedLimit scenarioALimits "currentSession" = some scenarioALimit := rfl
  unfold updateMenuBarDisplay
  rw [hsel]
  show (if (calculateTimeUntilReset scenarioALimit.resetsAtTime 0).2.2 then _ else _) = _
  have hrt : scenarioALimit.resetsAtTime = some scenarioAReset := rfl
  have hu : scenarioALimit.utilization = 423/10 := rfl
  rw [hrt, hcalc, hu, hround, hind]
  decide

/-- C5 (amended): for scenario A (current-session at 42.3%, reset in 1 hour
23 minutes), the rendered percent is 42%, the indicator tier is the low tier
🟢, and the reset offset is rounded to the nearest ten minutes, displaying
as 1h20m. -/
theorem scenarioA_render :
    roundUtilization (423/10) = 42 ∧
    getColorIndicator (423/10) = "🟢" ∧
    calculateTimeUntilReset (some scenarioAReset) 0 = (1, 20, true) ∧
    updateMenuBarDisplay scenarioALimits "currentSession" 0 = "🟢 42% (1h20m)" := by
  have hlt : (423 : ℚ)/10 < 50 := by norm_num
  have hind : getColorIndicator (423/10) = "🟢" := by
    unfold getColorIndicator; rw [if_pos hlt]
  have hround : roundUtilization (423/10) = 42 := by
    norm_num [roundUtilization, goTrunc]
  have hcalc : calculateTimeUntilReset (some scenarioAReset) 0 = (1, 20, true) := by
    unfold calculateTimeUntilReset scenarioAReset
    norm_num [goTrunc, roundToTenMinutes]
    decide
  refine ⟨hround, hind, hcalc, ?_⟩
  have hsel : getSelectedLimit scenarioALimits "currentSession" = some scenarioALimit := rfl
  unfold updateMenuBarDisplay
  rw [hsel]
  show (if (calculateTimeUntilReset scenarioALimit.resetsAtTime 0).2.2 then _ else _) = _
  have hrt : scenarioALimit.resetsAtTime = some scenarioAReset := rfl
  have hu : scenarioALimit.utilization = 423/10 := rfl
  rw [hrt, hcalc, hu, hround, hind]
  decide

/-- Helper: a truncated Go division by ten, multiplied back by ten, taken
modulo sixty, stays at most fifty for a non-negative argument. -/
theorem tmod_sixty_roundToTenMinutes (m : ℤ) (hm : 0 ≤ m) :
    0 ≤ Int.tmod (roundToTenMinutes m) 60 ∧ Int.tmod (roundToTenMinutes m) 60 ≤ 50 := by
  unfold roundToTenMinutes
  rw [Int.tdiv_eq_ediv (by omega) (by norm_num)]
  have harg : 0 ≤ (m + 5) / 10 * 10 :=
    mul_nonneg (Int.ediv_nonneg (by omega) (by norm_num)) (by norm_num)
  rw [Int.tmod_eq_emod harg (by norm_num)]
  omega

/-- Helper: `goTrunc` of a non-negative rational is non-negative. -/
theorem goTrunc_nonneg (x : ℚ) (hx : 0 ≤ x) : 0 ≤ goTrunc x := by
  unfold goTrunc
  rw [if_pos hx]
  exact Int.floor_nonneg.2 hx

/-- C8: whenever `calculateTimeUntilReset` reports a valid offset, the
displayed minute component is at most 50 (so never 60); in
`formatResetTime`, rounding the minute component of a calendar time to the
nearest ten keeps the displayed minutes at most 50, incrementing the hour
modulo 24 and zeroing the minutes when the rounding reaches 60; and a reset
offset of 61 minutes displays as 1 hour 0 minutes. -/
theorem displayedResetMinutes_never_sixty (rt : Option GoTime) (now : ℤ)
    (hvalid : (calculateTimeUntilReset rt now).2.2 = true)
    (hour minute : ℤ) (hmin0 : 0 ≤ minute) (hmin1 : minute < 60) :
    (calculateTimeUntilReset rt now).2.1 ≠ 60 ∧
    (calculateTimeUntilReset rt now).2.1 ≤ 50 ∧
    (formatResetAdjust hour (roundToTenMinutes minute)).2 ≠ 60 ∧
    (formatResetAdjust hour (roundToTenMinutes minute)).2 ≤ 50 ∧
    (60 ≤ roundToTenMinutes minute →
      formatResetAdjust hour (roundToTenMinutes minute) = (Int.tmod (hour + 1) 24, 0)) ∧
    calculateTimeUntilReset (some sixtyOneMinuteReset) 0 = (1, 0, true) := by
  obtain ⟨t, rfl⟩ : ∃ t, rt = some t := by
    cases rt with
    | none => simp [calculateTimeUntilReset] at hvalid
    | some t => exact ⟨t, rfl⟩
  by_cases hd : t.unixNs - now < 0
  · simp [calculateTimeUntilReset, hd] at hvalid
  · push_neg at hd
    have hmins : 0 ≤ goTrunc (((t.unixNs - now : ℤ) : ℚ) / 60000000000) :=
      goTrunc_nonneg _ (by positivity)
    have hproj : (calculateTimeUntilReset (some t) now).2.1 =
        Int.tmod (roundToTenMinutes (goTrunc (((t.unixNs - now : ℤ) : ℚ) / 60000000000))) 60 := by
      simp only [calculateTimeUntilReset]
      rw [if_neg (not_lt.2 hd)]
    have hbound := tmod_sixty_roundToTenMinutes _ hmins
    have hrm : roundToTenMinutes minute ≤ 60 := by
      unfold roundToTenMinutes
      rw [Int.tdiv_eq_ediv (by omega) (by norm_num)]
      omega
    have hrm0 : 0 ≤ roundToTenMinutes minute := by
      unfold roundToTenMinutes
      rw [Int.tdiv_eq_ediv (by omega) (by norm_num)]
      have := Int.ediv_nonneg (a := minute + 5) (b := 10) (by omega) (by norm_num)
      omega
    have hadj2 : (formatResetAdjust hour (roundToTenMinutes minute)).2 ≤ 50 := by
      unfold formatResetAdjust
      by_cases h60 : 60 ≤ roundToTenMinutes minute
      · rw [if_pos h60]
        norm_num
      · rw [if_neg h60]
        push_neg at h60
        unfold roundToTenMinutes at h60 ⊢
        rw [Int.tdiv_eq_ediv (by omega) (by norm_num)] at h60 ⊢
        omega
    have hadj0 : 0 ≤ (formatResetAdjust hour (roundToTenMinutes minute)).2 := by
      unfold formatResetAdjust
      by_cases h60 : 60 ≤ roundToTenMinutes minute
      · rw [if_pos h60]
      · rw [if_neg h60]
        exact hrm0
    refine ⟨by rw [hproj]; omega, by rw [hproj]; exact hbound.2, by omega, hadj2,
      fun h60 => ?_, ?_⟩
    · unfold formatResetAdjust
      rw [if_pos h60]
    · unfold calculateTimeUntilReset sixtyOneMinuteReset
      norm_num [goTrunc, roundToTenMinutes]
      decide

/-- Witness for C8: the theorem applied to a reset 61 minutes away with a
calendar minute component of 55. -/
theorem displayedResetMinutes_never_sixty_witness :
    (calculateTimeUntilReset (some sixtyOneMinuteReset) 0).2.1 ≠ 60 ∧
    (formatResetAdjust 5 (roundToTenMinutes 55)).2 ≠ 60 ∧
    calculateTimeUntilReset (some sixtyOneMinuteReset) 0 = (1, 0, true) := by
  have hvalid : (calculateTimeUntilReset (some sixtyOneMinuteReset) 0).2.2 = true := by
    unfold calculateTimeUntilReset sixtyOneMinuteReset
    norm_num [goTrunc, roundToTenMinutes]
  have h := displayedResetMinutes_never_sixty (some sixtyOneMinuteReset) 0 hvalid
    5 55 (by decide) (by decide)
  exact ⟨h.1, h.2.2.1, h.2.2.2.2.2⟩

/-- C9 counterexample: a zero-utilization window with no reset timestamp is
rendered as "5-Hour Session: 0% (no active session)"; the marker is appended
after the percentage, so the rendering still contains "0%" and is not the
bare "no active session" text the claim describes. -/
theorem noActiveSession_counterexample :
    formatUsageWithReset (some ⟨0, "", none⟩) "5-Hour Session:" 0 =
      "5-Hour Session: 0% (no active session)" ∧
    containsChars "0%".data "5-Hour Session: 0% (no active session)".data = true ∧
    "5-Hour Session: 0% (no active session)" ≠ "5-Hour Session: no active session" := by
  have h0 : roundUtilization 0 = 0 := by norm_num [roundUtilization, goTrunc]
  refine ⟨?_, by decide, by decide⟩
  simp only [formatUsageWithReset, calculateTimeUntilReset, h0]
  decide

/-- C9 (amended): for every usage window whose utilization rounds to zero
and that has no reset timestamp, the rendered menu text is the percentage
followed by the appended "(no active session)" marker — distinguishing it
from the plain percentage rendering — and the console rendering likewise
carries the marker. -/
theorem noActiveSession_render (l : UsageLimit) (label : String) (now : ℤ)
    (h0 : roundUtilization l.utilization = 0) (hrt : l.resetsAtTime = none) :
    formatUsageWithReset (some l) label now = label ++ " 0% (no active session)" ∧
    formatConsoleUsage (some l) label "no active session" now =
      label ++ "    0%  (no active session)\n" := by
  constructor
  · simp only [formatUsageWithReset, hrt, calculateTimeUntilReset, h0]
    rw [if_pos (by constructor <;> trivial), String.append_assoc, String.append_assoc]
    exact congrArg (fun s => label ++ s) (by decide)
  · simp only [formatConsoleUsage, hrt, calculateTimeUntilReset, h0]
    rw [if_neg (by simp), if_pos (by simp), String.append_assoc, String.append_assoc,
      String.append_assoc, String.append_assoc]
    exact congrArg (fun s => label ++ s) (by decide)

/-- Witness for C9 (amended): the theorem applied to the zero window. -/
theorem noActiveSession_render_witness :
    formatUsageWithReset (some ⟨0, "", none⟩) "5-Hour Session:" 0 =
      "5-Hour Session:" ++ " 0% (no active session)" ∧
    formatConsoleUsage (some ⟨0, "", none⟩) "5-Hour Session:" "no active session" 0 =
      "5-Hour Session:" ++ "    0%  (no active session)\n" :=
  noActiveSession_render ⟨0, "", none⟩ "5-Hour Session:" 0
    (by norm_num [roundUtilization, goTrunc]) rfl

/-- C2: for every failed fetch, the cache slot keeps the snapshot it held
before, the title shows the error indicator, and the primary menu line reads
"Session expired - please login again" exactly when the failure is an
authentication failure. -/
theorem updateStats_failure_frame (e : FetchError) (indicator : String) (nowNs : ℤ)
    (st : TrayState) :
    (updateStats true indicator nowNs (.error e) st).lastLimits = st.lastLimits ∧
    (updateStats true indicator nowNs (.error e) st).title = "⚪ Error" ∧
    ((updateStats true indicator nowNs (.error e) st).mCurrentSession =
        "Session expired - please login again" ↔ e = .authFailure) := by
  cases e <;> simp [updateStats]

/-- C1: when the marker file holds content that does not parse as a PID, or
parses to a PID whose liveness probe fails, `isRunning` returns false and
deletes the marker; a second call then returns false and changes nothing;
and `isRunning` returns true only when the marker parses to a PID whose
probe succeeds. -/
theorem isRunning_stale_marker (w : PidWorld) (s : String)
    (hm : w.marker = some s)
    (hstale : atoi s = none ∨ ∃ pid, atoi s = some pid ∧ w.live.contains pid = false) :
    (isRunning w).1 = false ∧
    (isRunning w).2 = { w with marker := none } ∧
    (isRunning (isRunning w).2).1 = false ∧
    (isRunning (isRunning w).2).2 = (isRunning w).2 ∧
    (∀ v : PidWorld, (isRunning v).1 = true →
      ∃ s2 pid, v.marker = some s2 ∧ atoi s2 = some pid ∧ v.live.contains pid = true) := by
  have h1 : isRunning w = (false, { w with marker := none }) := by
    unfold isRunning
    rw [hm]
    rcases hstale with h | ⟨pid, hp, hl⟩
    · simp [h]
    · have hl2 : pid ∉ w.live := by simpa using hl
      simp [hp, hl2]
  have h2 : isRunning { w with marker := none } = (false, { w with marker := none }) := rfl
  refine ⟨by rw [h1], by rw [h1], by rw [h1, h2], by rw [h1, h2], ?_⟩
  intro v hv
  unfold isRunning at hv
  rcases hmv : v.marker with _ | s2 <;> rw [hmv] at hv
  · simp at hv
  · rcases hav : atoi s2 with _ | pid
    · simp [hav] at hv
    · rcases hlv : v.live.contains pid with _ | _
      · have hnl : pid ∉ v.live := by simpa using hlv
        simp [hav, hnl] at hv
      · exact ⟨s2, pid, rfl, hav, hlv⟩

/-- Witness for C1: a marker containing "99" while no PID is live. -/
theorem isRunning_stale_marker_witness :
    (isRunning ⟨some "99", []⟩).1 = false ∧
    (isRunning ⟨some "99", []⟩).2 = ⟨none, []⟩ ∧
    (isRunning (isRunning ⟨some "99", []⟩).2).1 = false ∧
    (isRunning (isRunning ⟨some "99", []⟩).2).2 = (isRunning ⟨some "99", []⟩).2 ∧
    (∀ v : PidWorld, (isRunning v).1 = true →
      ∃ s2 pid, v.marker = some s2 ∧ atoi s2 = some pid ∧ v.live.contains pid = true) :=
  isRunning_stale_marker ⟨some "99", []⟩ "99" rfl (Or.inr ⟨99, by decide, by decide⟩)

/-- C4: `daemonize` returns to the caller exactly when the already-detached
environment flag is set; otherwise a failure to resolve the executable path
or to start the child terminates the parent with exit code 1, and a
successful start launches the same executable with the daemon flag set and
no inherited standard streams, prints the child PID, and exits 0 after the
fixed 100ms startup delay. -/
theorem daemonize_spec (w : DaemonWorld) :
    (w.daemonEnv = true → daemonize w = .proceed) ∧
    (w.daemonEnv = false → w.execPath = none → daemonize w = .exitCode 1) ∧
    (∀ p, w.daemonEnv = false → w.execPath = some p → w.startResult = none →
      daemonize w = .exitCode 1) ∧
    (∀ p pid, w.daemonEnv = false → w.execPath = some p → w.startResult = some pid →
      daemonize w = .detachExit ⟨p, true, true, true, true⟩ pid daemonStartupDelay) := by
  refine ⟨fun h => ?_, fun h1 h2 => ?_, fun p h1 h2 h3 => ?_, fun p pid h1 h2 h3 => ?_⟩
  · simp [daemonize, h]
  · simp [daemonize, h1, h2]
  · simp [daemonize, h1, h2, h3]
  · simp [daemonize, h1, h2, h3]

/-- Witness for C4: with the flag unset, a resolved path and a started
child with PID 4242, daemonize exits 0 after launching that path detached. -/
theorem daemonize_spec_witness :
    daemonize ⟨false, some "/usr/local/bin/claude-monitor-lite", some 4242⟩ =
      .detachExit ⟨"/usr/local/bin/claude-monitor-lite", true, true, true, true⟩
        4242 daemonStartupDelay :=
  (daemonize_spec ⟨false, some "/usr/local/bin/claude-monitor-lite", some 4242⟩).2.2.2
    "/usr/local/bin/claude-monitor-lite" 4242 rfl rfl rfl

/-- Helper: observations of a concatenated history split at the
intermediate slot state. -/
theorem runCache_append (a b : List CacheOp) (s : Option UsageLimits) :
    runCache (a ++ b) s = runCache a s ++ runCache b (cacheAfter a s) := by
  induction a generalizing s with
  | nil => simp [runCache, cacheAfter]
  | cons op rest ih =>
    cases op with
    | set v => simp [runCache, cacheAfter, cacheStep, ih]
    | get => simp [runCache, cacheAfter, cacheStep, ih]

/-- Helper: a history without set operations leaves the slot unchanged. -/
theorem cacheAfter_no_set (t : List CacheOp) (s : Option UsageLimits)
    (h : ∀ v, CacheOp.set v ∉ t) : cacheAfter t s = s := by
  induction t generalizing s with
  | nil => rfl
  | cons op rest ih =>
    cases op with
    | set v => exact absurd (List.mem_cons_self _ _) (h v)
    | get =>
      have : cacheAfter (CacheOp.get :: rest) s = cacheAfter rest s := by
        simp [cacheAfter, cacheStep]
      rw [this]
      exact ih s (fun v hv => h v (List.mem_cons_of_mem _ hv))

/-- Helper: every observed value is the initial slot state or the argument
of a set operation in the history. -/
theorem runCache_mem (t : List CacheOp) (s o : Option UsageLimits)
    (ho : o ∈ runCache t s) : o = s ∨ ∃ v, o = some v ∧ CacheOp.set v ∈ t := by
  induction t generalizing s with
  | nil => simp [runCache] at ho
  | cons op rest ih =>
    cases op with
    | set v =>
      rcases ih (some v) ho with h | ⟨w, hw, hmem⟩
      · exact Or.inr ⟨v, h, by simp⟩
      · exact Or.inr ⟨w, hw, by simp [hmem]⟩
    | get =>
      rcases List.mem_cons.1 ho with rfl | ho2
      · exact Or.inl rfl
      · rcases ih s ho2 with h | ⟨w, hw, hmem⟩
        · exact Or.inl h
        · exact Or.inr ⟨w, hw, by simp [hmem]⟩

/-- Helper: each get contributes exactly one observation. -/
theorem runCache_length (t : List CacheOp) (s : Option UsageLimits) :
    (runCache t s).length = countGets t := by
  induction t generalizing s with
  | nil => rfl
  | cons op rest ih =>
    cases op with
    | set v => simp [runCache, countGets, ih]
    | get => simp [runCache, countGets, ih, Nat.add_comm]

/-- C3: over any sequence of atomic operations on the cache slot, each get
returns exactly one observation (non-blocking); before the first set every
observation is absent; every observed value is absent or a whole snapshot
some set wrote (never a torn value); and a get that follows a set with no
set in between observes exactly the value of that set. -/
theorem cache_get_consistent (t t₁ t₂ : List CacheOp) (v : UsageLimits) :
    (runCache t none).length = countGets t ∧
    ((∀ w, CacheOp.set w ∉ t) → ∀ o ∈ runCache t none, o = none) ∧
    (∀ o ∈ runCache t none, o = none ∨ ∃ w, o = some w ∧ CacheOp.set w ∈ t) ∧
    ((∀ w, CacheOp.set w ∉ t₂) →
      runCache (t₁ ++ CacheOp.set v :: (t₂ ++ [CacheOp.get])) none =
        runCache (t₁ ++ CacheOp.set v :: t₂) none ++ [some v]) := by
  refine ⟨runCache_length t none, ?_, fun o ho => runCache_mem t none o ho, ?_⟩
  · intro hns o ho
    rcases runCache_mem t none o ho with h | ⟨w, _, hmem⟩
    · exact h
    · exact absurd hmem (hns w)
  · intro hns
    have hmid : cacheAfter t₂ (some v) = some v := cacheAfter_no_set t₂ (some v) hns
    have hleft : runCache (t₁ ++ CacheOp.set v :: (t₂ ++ [CacheOp.get])) none =
        runCache t₁ none ++ (runCache t₂ (some v) ++ [some v]) := by
      rw [runCache_append]
      have : runCache (CacheOp.set v :: (t₂ ++ [CacheOp.get])) (cacheAfter t₁ none) =
          runCache (t₂ ++ [CacheOp.get]) (some v) := rfl
      rw [this, runCache_append, hmid]
      rfl
    have hright : runCache (t₁ ++ CacheOp.set v :: t₂) none =
        runCache t₁ none ++ runCache t₂ (some v) := by
      rw [runCache_append]
      rfl
    rw [hleft, hright, List.append_assoc]

/-- Witness for C3: the freshness clause applied to the concrete history
set-get-get, whose second get observes the value just set. -/
theorem cache_get_consistent_witness :
    runCache ([] ++ CacheOp.set emptyLimits :: ([CacheOp.get] ++ [CacheOp.get])) none =
      runCache ([] ++ CacheOp.set emptyLimits :: [CacheOp.get]) none ++ [some emptyLimits] :=
  (cache_get_consistent [CacheOp.get] [] [CacheOp.get] emptyLimits).2.2.2
    (fun w hw => by simp at hw)

/-- Helper: marshalling a `Config` whose savedAt, if present, is a valid
RFC 3339 text and unmarshalling it back yields the same `Config` and no
error (the `omitempty` fields come back as their zero values, which is what
they were when omitted). -/
theorem unmarshalConfig_marshalConfig (c : Config) (hwf : savedAtWellFormed c = true) :
    unmarshalConfig (marshalConfig c) = (c, false) := by
  rcases c with ⟨sk, oi, sa, mi⟩
  rcases sa with _ | t
  · unfold marshalConfig unmarshalConfig
    by_cases hsk : sk = ""
    · by_cases hoi : oi = ""
      · subst hsk; subst hoi; rfl
      · subst hsk; rw [if_pos rfl, if_neg hoi]; rfl
    · by_cases hoi : oi = ""
      · subst hoi; rw [if_neg hsk, if_pos rfl]; rfl
      · rw [if_neg hsk, if_neg hoi]; rfl
  · have hv : isRFC3339 t = true := by simpa [savedAtWellFormed] using hwf
    unfold marshalConfig unmarshalConfig
    by_cases hsk : sk = ""
    · by_cases hoi : oi = ""
      · subst hsk; subst hoi
        show (if isRFC3339 t = true then
            decodeConfigFields [("menuBarIndicator", Json.str mi)]
              ⟨"", "", some t, ""⟩ false
          else ((⟨"", "", none, ""⟩ : Config), true)) = (⟨"", "", some t, mi⟩, false)
        rw [hv]
        rfl
      · subst hsk
        rw [if_pos rfl, if_neg hoi]
        show (if isRFC3339 t = true then
            decodeConfigFields [("menuBarIndicator", Json.str mi)]
              ⟨"", oi, some t, ""⟩ false
          else ((⟨"", oi, none, ""⟩ : Config), true)) = (⟨"", oi, some t, mi⟩, false)
        rw [hv]
        rfl
    · by_cases hoi : oi = ""
      · subst hoi
        rw [if_neg hsk, if_pos rfl]
        show (if isRFC3339 t = true then
            decodeConfigFields [("menuBarIndicator", Json.str mi)]
              ⟨sk, "", some t, ""⟩ false
          else ((⟨sk, "", none, ""⟩ : Config), true)) = (⟨sk, "", some t, mi⟩, false)
        rw [hv]
        rfl
      · rw [if_neg hsk, if_neg hoi]
        show (if isRFC3339 t = true then
            decodeConfigFields [("menuBarIndicator", Json.str mi)]
              ⟨sk, oi, some t, ""⟩ false
          else ((⟨sk, oi, none, ""⟩ : Config), true)) = (⟨sk, oi, some t, mi⟩, false)
        rw [hv]
        rfl

/-- Helper: decoding only ever stores a savedAt text that passed the
RFC 3339 check, so the decoded configuration's savedAt stays well formed. -/
theorem decodeConfigFields_savedAtWellFormed (fields : List (String × Json))
    (c : Config) (b : Bool) (hc : savedAtWellFormed c = true) :
    savedAtWellFormed (decodeConfigFields fields c b).1 = true := by
  induction fields generalizing c b with
  | nil => exact hc
  | cons kv rest ih =>
    unfold decodeConfigFields
    by_cases h1 : jsonKeyMatches kv.1 "sessionKey" = true
    · rw [if_pos h1]
      rcases kv.2 with _ | b2 | q | s | es | fs
      · exact ih _ _ hc
      · exact ih _ _ hc
      · exact ih _ _ hc
      · exact ih _ _ hc
      · exact ih _ _ hc
      · exact ih _ _ hc
    · rw [if_neg h1]
      by_cases h2 : jsonKeyMatches kv.1 "organizationId" = true
      · rw [if_pos h2]
        rcases kv.2 with _ | b2 | q | s | es | fs
        · exact ih _ _ hc
        · exact ih _ _ hc
        · exact ih _ _ hc
        · exact ih _ _ hc
        · exact ih _ _ hc
        · exact ih _ _ hc
      · rw [if_neg h2]
        by_cases h3 : jsonKeyMatches kv.1 "savedAt" = true
        · rw [if_pos h3]
          rcases kv.2 with _ | b2 | q | s | es | fs
          · exact ih _ _ rfl
          · exact hc
          · exact hc
          · show savedAtWellFormed (if isRFC3339 s = true then
                decodeConfigFields rest { c with savedAt := some s } b
              else (c, true)).1 = true
            by_cases hv : isRFC3339 s = true
            · rw [if_pos hv]
              exact ih _ _ hv
            · rw [if_neg hv]
              exact hc
          · exact hc
          · exact hc
        · rw [if_neg h3]
          by_cases h4 : jsonKeyMatches kv.1 "menuBarIndicator" = true
          · rw [if_pos h4]
            rcases kv.2 with _ | b2 | q | s | es | fs
            · exact ih _ _ hc
            · exact ih _ _ hc
            · exact ih _ _ hc
            · exact ih _ _ hc
            · exact ih _ _ hc
            · exact ih _ _ hc
          · rw [if_neg h4]
            exact ih _ _ hc

/-- Helper: whatever `unmarshalConfig` decodes has a well-formed savedAt. -/
theorem unmarshalConfig_savedAtWellFormed (j : Json) :
    savedAtWellFormed (unmarshalConfig j).1 = true := by
  rcases j with _ | b | q | s | es | fs
  · rfl
  · rfl
  · rfl
  · rfl
  · rfl
  · exact decodeConfigFields_savedAtWellFormed fs zeroConfig false rfl

/-- C10 counterexample: a configuration file whose contents parse as JSON
but make the decode error out loses its session fields. Here in two ways:
`organizationId` as the number 5 is an `UnmarshalTypeError`, and a `savedAt`
text "notadate" that is not RFC 3339 is rejected by
`time.Time.UnmarshalJSON`; either way `SaveConfigPreservingSession` starts
from the zero configuration and the previously present `sessionKey` value
"sk-abc" is gone from the rewritten file. -/
theorem saveConfig_json_but_untyped_counterexample :
    jsonField (Json.obj [("sessionKey", Json.str "sk-abc"),
      ("organizationId", Json.num 5)]) "sessionKey" = some (Json.str "sk-abc") ∧
    jsonField (SaveConfigPreservingSession
      (.json (Json.obj [("sessionKey", Json.str "sk-abc"),
        ("organizationId", Json.num 5)])) "weeklyAll") "sessionKey" = none ∧
    jsonField (Json.obj [("sessionKey", Json.str "sk-abc"),
      ("savedAt", Json.str "notadate")]) "sessionKey" = some (Json.str "sk-abc") ∧
    jsonField (SaveConfigPreservingSession
      (.json (Json.obj [("sessionKey", Json.str "sk-abc"),
        ("savedAt", Json.str "notadate")])) "weeklyAll") "sessionKey" = none :=
  ⟨rfl, rfl, rfl, rfl⟩

/-- C10 (amended): for every existing configuration file whose contents
unmarshal into the `Config` structure without error, persisting a
display-mode selection changes only the menu-bar indicator: the decoded
sessionKey, organizationId and savedAt of the rewritten file equal those of
the original file, the decoded menuBarIndicator becomes the selection, and
the rewritten file decodes without error. -/
theorem saveConfigPreservingSession_frame (j : Json) (mode : String)
    (hok : (unmarshalConfig j).2 = false) :
    (unmarshalConfig (SaveConfigPreservingSession (.json j) mode)).1.sessionKey =
      (unmarshalConfig j).1.sessionKey ∧
    (unmarshalConfig (SaveConfigPreservingSession (.json j) mode)).1.organizationId =
      (unmarshalConfig j).1.organizationId ∧
    (unmarshalConfig (SaveConfigPreservingSession (.json j) mode)).1.savedAt =
      (unmarshalConfig j).1.savedAt ∧
    (unmarshalConfig (SaveConfigPreservingSession (.json j) mode)).1.menuBarIndicator = mode ∧
    (unmarshalConfig (SaveConfigPreservingSession (.json j) mode)).2 = false := by
  have hex : SaveConfigPreservingSession (.json j) mode =
      marshalConfig { (unmarshalConfig j).1 with menuBarIndicator := mode } := by
    dsimp only [SaveConfigPreservingSession]
    rw [hok]
    rfl
  have hwf : savedAtWellFormed { (unmarshalConfig j).1 with menuBarIndicator := mode } = true :=
    unmarshalConfig_savedAtWellFormed j
  rw [hex, unmarshalConfig_marshalConfig _ hwf]
  exact ⟨rfl, rfl, rfl, rfl, rfl⟩

/-- Witness for C10 (amended): a well-typed config file keeps its session
fields when the display mode is switched to weeklyOpus. -/
theorem saveConfigPreservingSession_frame_witness :
    (unmarshalConfig (SaveConfigPreservingSession
      (.json (Json.obj [("sessionKey", Json.str "sk-abc"),
        ("menuBarIndicator", Json.str "currentSession")])) "weeklyOpus")).1.sessionKey =
      (unmarshalConfig (Json.obj [("sessionKey", Json.str "sk-abc"),
        ("menuBarIndicator", Json.str "currentSession")])).1.sessionKey ∧
    (unmarshalConfig (SaveConfigPreservingSession
      (.json (Json.obj [("sessionKey", Json.str "sk-abc"),
        ("menuBarIndicator", Json.str "currentSession")])) "weeklyOpus")).1.menuBarIndicator =
      "weeklyOpus" := by
  have h := saveConfigPreservingSession_frame
    (Json.obj [("sessionKey", Json.str "sk-abc"),
      ("menuBarIndicator", Json.str "currentSession")]) "weeklyOpus" rfl
  exact ⟨h.1, h.2.2.2.1⟩

end ClaudeMonitorLite
